import Mathlib

/-!
Verification of the structural-health-monitoring server core
(`src/server.js`): the bounded in-memory reading store and the four
request handlers (ingest, paged read, latest read, spreadsheet export).

The embedding is shallow: the event-loop state `localDataStore.sensorData`
becomes an explicit `List Reading` threaded through each handler; the
wall clock (`Date.now()`) and the formatted timestamp (`getISTDateTime()`)
are injected as parameters, mirroring the fact that the server reads them
from its environment at ingest time.  JavaScript numbers are modelled as
`JSNumber` (a rational or NaN; none of the server code performs float
arithmetic, only coercion and storage), and JSON body values as `JSValue`.
-/

/-- A JavaScript numeric value as stored by the server: either an ordinary
number (modelled as a rational; the server only coerces and stores values,
never computes with them) or NaN. -/
inductive JSNumber where
  | nan : JSNumber
  | val : Rat → JSNumber
deriving DecidableEq, Repr

/-- A JSON body value as relevant to the POST handler: `null`, a number,
or a string.  A missing field is `Option.none` at the payload level
(JavaScript `undefined`). -/
inductive JSValue where
  | null : JSValue
  | num : Rat → JSValue
  | str : String → JSValue
deriving DecidableEq, Repr

/-- Digit list of a natural number, least significant first, via explicit
fuel so that the definition reduces by kernel computation.
`decDigitsCore fuel n` is the digit list of `n` provided `n ≤ fuel`. -/
def decDigitsCore : Nat → Nat → List Nat
  | _, 0 => []
  | 0, _ + 1 => []
  | f + 1, m + 1 => (m + 1) % 10 :: decDigitsCore f ((m + 1) / 10)

/-- Digit list of a natural number, least significant first (`decDigits 0 = []`). -/
def decDigits (n : Nat) : List Nat := decDigitsCore n n

/-- The character for one decimal digit. -/
def digitCh (d : Nat) : Char := Char.ofNat (48 + d)

/-- Decimal string of a natural number.  Models the JavaScript
`Number.prototype.toString()` on the integer value of `Date.now()`
(server.js line 78, `id: Date.now().toString()`). -/
def natToString (n : Nat) : String :=
  if n = 0 then "0" else String.mk (((decDigits n).map digitCh).reverse)

/-- One stored sensor sample, as built by the POST handler
(server.js lines 72–79). -/
structure Reading where
  strain : JSNumber
  vibration : JSNumber
  displacement : JSNumber
  acceleration : JSNumber
  timestamp : String
  id : String
deriving DecidableEq, Repr

/-- The request body of POST /api/sensor-data: each field is absent
(`none`, JavaScript `undefined`) or a JSON value. -/
structure Payload where
  strain : Option JSValue
  vibration : Option JSValue
  displacement : Option JSValue
  acceleration : Option JSValue
deriving DecidableEq, Repr

/-- Value of a natural number read from a decimal digit character list
(most significant first). -/
def digitsToNat (cs : List Char) : Nat :=
  cs.foldl (fun a c => 10 * a + (c.toNat - 48)) 0

/-- Modelled fragment of the JavaScript decimal-literal parse used by
`Number()` on a (sign-stripped) string body: leading digits, optionally a
point and fraction digits; anything else is not a number.  (Hex, binary and
infinity literals are outside the fragment the server ever receives.) -/
def parseDecCore (cs : List Char) : Option Rat :=
  let intPart := cs.takeWhile Char.isDigit
  let rest := cs.dropWhile Char.isDigit
  match rest with
  | [] => if intPart.isEmpty then none else some (digitsToNat intPart)
  | c :: frac =>
    if c = '.' ∧ frac.all Char.isDigit ∧ (intPart ≠ [] ∨ frac ≠ []) then
      some ((digitsToNat intPart : Rat) + (digitsToNat frac : Rat) / (10 ^ frac.length))
    else none

/-- Strip leading and trailing whitespace from a character list (the trim
JavaScript performs before a numeric string conversion). -/
def trimChars (cs : List Char) : List Char :=
  ((cs.dropWhile Char.isWhitespace).reverse.dropWhile Char.isWhitespace).reverse

/-- Modelled fragment of JavaScript `Number(string)`: trim whitespace,
empty means 0, otherwise an optionally signed decimal literal; any other
string is NaN. -/
def jsStringToNumber (s : String) : JSNumber :=
  match trimChars s.toList with
  | [] => JSNumber.val 0
  | t =>
    let p : Bool × List Char :=
      match t with
      | '-' :: rest => (true, rest)
      | '+' :: rest => (false, rest)
      | cs => (false, cs)
    match parseDecCore p.2 with
    | some q => JSNumber.val (if p.1 then -q else q)
    | none => JSNumber.nan

/-- JavaScript `Number()` on a JSON value: `Number(null) = 0`, a number is
itself, a string goes through the string conversion. -/
def jsToNumber : JSValue → JSNumber
  | JSValue.null => JSNumber.val 0
  | JSValue.num q => JSNumber.val q
  | JSValue.str s => jsStringToNumber s

/-- `Number()` applied to a possibly absent body field
(`Number(undefined) = NaN`; unreachable on the success path because
validation has already rejected absent fields). -/
def numField : Option JSValue → JSNumber
  | none => JSNumber.nan
  | some v => jsToNumber v

/-- The POST handler's validation test for one field
(server.js lines 62–65): `strain === undefined || strain === null`. -/
def isMissing : Option JSValue → Bool
  | none => true
  | some JSValue.null => true
  | some _ => false

/-- Insert into the store as the POST handler does (server.js lines 83–88):
`unshift` the new reading, then if the length exceeds 50 keep `slice(0, 50)`. -/
def insertReading (store : List Reading) (r : Reading) : List Reading :=
  let s := r :: store
  if s.length > 50 then s.take 50 else s

/-- All readings produced by a sequence of successful ingests applied in
order, starting from the empty store. -/
def insertAll (rs : List Reading) : List Reading :=
  rs.foldl insertReading []

/-- The JSON response of POST /api/sensor-data (`latestData` is present
only on the 200 response). -/
structure PostResponse where
  status : Nat
  success : Bool
  message : String
  latestData : Option Reading
deriving DecidableEq, Repr

/-- POST /api/sensor-data (server.js lines 51–102).  `ts` is the formatted
timestamp the server obtains from `getISTDateTime()` and `now` the
millisecond clock value from `Date.now()`, both injected.  Returns the
response and the store after the call. -/
def handlePost (body : Payload) (ts : String) (now : Nat) (store : List Reading) :
    PostResponse × List Reading :=
  if isMissing body.strain || isMissing body.vibration ||
      isMissing body.displacement || isMissing body.acceleration then
    ({ status := 400, success := false,
       message := "Missing required fields: strain, vibration, displacement, or acceleration",
       latestData := none }, store)
  else
    let newData : Reading :=
      { strain := numField body.strain
        vibration := numField body.vibration
        displacement := numField body.displacement
        acceleration := numField body.acceleration
        timestamp := ts
        id := natToString now }
    ({ status := 200, success := true,
       message := "Data stored successfully in memory",
       latestData := some newData }, insertReading store newData)

/-- JavaScript `parseInt` on a possibly absent query parameter, as in
`parseInt(req.query.limit)` (server.js line 106): `NaN` (here `none`) when
the parameter is absent or has no leading digits after an optional sign,
the signed value of the leading digit run otherwise. -/
def jsParseInt (s : Option String) : Option Int :=
  match s with
  | none => none
  | some s =>
    let p : Int × List Char :=
      match trimChars s.toList with
      | '-' :: rest => (-1, rest)
      | '+' :: rest => (1, rest)
      | cs => (1, cs)
    let ds := p.2.takeWhile Char.isDigit
    if ds.isEmpty then none else some (p.1 * (digitsToNat ds : Int))

/-- JavaScript `array.slice(0, e)`: a negative end counts from the end of
the array and is clamped at 0, a nonnegative end is clamped at the length. -/
def jsSliceTo (xs : List Reading) (e : Int) : List Reading :=
  let len : Int := xs.length
  let stop := if e < 0 then max (len + e) 0 else min e len
  xs.take stop.toNat

/-- The JSON response of GET /api/sensor-data. -/
structure GetResponse where
  status : Nat
  success : Bool
  data : List Reading
deriving DecidableEq, Repr

/-- GET /api/sensor-data (server.js lines 105–121):
`limit = parseInt(req.query.limit) || 10` (so `NaN` and `0` fall back to
10), then `sensorData.slice(0, limit)`.  Returns the response and the
store after the call. -/
def handleGet (limitParam : Option String) (store : List Reading) :
    GetResponse × List Reading :=
  let limit : Int :=
    match jsParseInt limitParam with
    | none => 10
    | some n => if n = 0 then 10 else n
  ({ status := 200, success := true, data := jsSliceTo store limit }, store)

/-- The JSON response of GET /api/sensor-data/latest (`data` on 200,
`message` on 404). -/
structure LatestResponse where
  status : Nat
  success : Bool
  data : Option Reading
  message : Option String
deriving DecidableEq, Repr

/-- GET /api/sensor-data/latest (server.js lines 124–136): if the store is
non-empty answer 200 with `sensorData[0]`, otherwise 404.  Returns the
response and the store after the call. -/
def handleLatest (store : List Reading) : LatestResponse × List Reading :=
  match store with
  | r :: _ =>
    ({ status := 200, success := true, data := some r, message := none }, store)
  | [] =>
    ({ status := 404, success := false, data := none,
       message := some "No data available" }, store)

/-- One worksheet cell: a string or a numeric value. -/
inductive Cell where
  | s : String → Cell
  | n : JSNumber → Cell
deriving DecidableEq, Repr

/-- The worksheet built by the download handler: the header row, whether
its font is bold, and the data rows. -/
structure Worksheet where
  header : List String
  headerBold : Bool
  rows : List (List Cell)
deriving DecidableEq, Repr

/-- The row `worksheet.addRow(data)` appends for one reading: the keyed
columns pick the reading's fields in the declared column order
(server.js lines 154–166). -/
def readingRow (r : Reading) : List Cell :=
  [Cell.s r.timestamp, Cell.n r.strain, Cell.n r.vibration,
   Cell.n r.displacement, Cell.n r.acceleration, Cell.s r.id]

/-- GET /api/sensor-data/download (server.js lines 139–191): builds the
worksheet with the six fixed columns, one row per stored reading in store
order, and bolds the header row.  Returns the worksheet and the store
after the call. -/
def handleDownload (store : List Reading) : Worksheet × List Reading :=
  ({ header := ["Timestamp", "Strain", "Vibration", "Displacement", "Acceleration", "ID"],
     headerBold := true,
     rows := store.map readingRow }, store)

/-- A payload whose four fields are all plain numbers. -/
def numericPayload (q1 q2 q3 q4 : Rat) : Payload :=
  ⟨some (JSValue.num q1), some (JSValue.num q2), some (JSValue.num q3), some (JSValue.num q4)⟩

/-- The reading the POST handler builds from a numeric payload at
timestamp `ts` and clock value `now`. -/
def numericReading (q1 q2 q3 q4 : Rat) (ts : String) (now : Nat) : Reading :=
  { strain := JSNumber.val q1, vibration := JSNumber.val q2,
    displacement := JSNumber.val q3, acceleration := JSNumber.val q4,
    timestamp := ts, id := natToString now }

/-- A concrete reading used in witnesses and counterexamples. -/
def sampleReading (k : Nat) : Reading :=
  { strain := JSNumber.val k, vibration := JSNumber.val 0,
    displacement := JSNumber.val 0, acceleration := JSNumber.val 0,
    timestamp := "2025-01-01, 00:00:00", id := natToString k }

/-- A concrete 3-element store used in witnesses and counterexamples. -/
def store3 : List Reading := [sampleReading 0, sampleReading 1, sampleReading 2]

/-! ### Store lemmas -/

/-- Inserting always yields the first 50 elements of the new reading
prepended to the old store, whatever the old length. -/
theorem insertReading_eq_take (s : List Reading) (r : Reading) :
    insertReading s r = (r :: s).take 50 := by
  unfold insertReading
  by_cases h : (r :: s).length > 50
  · simp [h]
  · simp only [if_neg h]
    exact (List.take_of_length_le (by omega)).symm

theorem take_append_take (l m : List Reading) :
    (l ++ m.take 50).take 50 = (l ++ m).take 50 := by
  rw [List.take_append_eq_append_take, List.take_append_eq_append_take, List.take_take]
  have h50 : min (50 - l.length) 50 = 50 - l.length := by omega
  rw [h50]

theorem foldl_insertReading (rs : List Reading) :
    ∀ acc : List Reading, acc.length ≤ 50 →
      rs.foldl insertReading acc = (rs.reverse ++ acc).take 50 := by
  induction rs with
  | nil => intro acc h; simp [List.take_of_length_le h]
  | cons r t ih =>
    intro acc h
    rw [List.foldl_cons, insertReading_eq_take,
        ih _ (by rw [List.length_take]; omega)]
    rw [List.reverse_cons, List.append_assoc, List.singleton_append,
        take_append_take]

/-- The store after any sequence of ingests from empty: the reversed input
truncated to the newest 50. -/
theorem insertAll_eq (rs : List Reading) : insertAll rs = rs.reverse.take 50 := by
  unfold insertAll
  rw [foldl_insertReading rs [] (by simp)]
  simp

/-- The head of the store right after an insertion is the inserted reading. -/
theorem insertReading_head (s : List Reading) (r : Reading) :
    (insertReading s r).head? = some r := by
  rw [insertReading_eq_take, show (50 : Nat) = 49 + 1 from rfl, List.take_succ_cons]
  rfl

/-- C1: starting from an empty store, a sequence of N successful ingests
leaves `ReadAll()` with exactly `min N 50` readings, equal to the inserted
readings in reverse insertion order truncated to the newest 50
(newest first); inserting a 51st reading keeps the new reading plus the 49
newest previous ones, evicting only the first-inserted reading. -/
theorem c1_bounded_fifo (rs : List Reading) :
    insertAll rs = rs.reverse.take 50 ∧
    (insertAll rs).length = min rs.length 50 ∧
    (∀ r : Reading, rs.length = 50 →
      insertAll (rs ++ [r]) = r :: (insertAll rs).take 49) := by
  refine ⟨insertAll_eq rs, ?_, ?_⟩
  · rw [insertAll_eq, List.length_take, List.length_reverse, Nat.min_comm]
  · intro r h
    rw [insertAll_eq, insertAll_eq, List.reverse_append, List.reverse_singleton,
        List.singleton_append, show (50 : Nat) = 49 + 1 from rfl, List.take_succ_cons,
        List.take_take]
    have h49 : min 49 (49 + 1) = 49 := by omega
    rw [h49]

/-- Witness for C1 at a concrete 50-element store plus a 51st insert. -/
theorem c1_bounded_fifo_witness :
    insertAll (List.replicate 50 (sampleReading 0) ++ [sampleReading 1]) =
      sampleReading 1 :: (insertAll (List.replicate 50 (sampleReading 0))).take 49 :=
  (c1_bounded_fifo _).2.2 (sampleReading 1) (by simp)

/-- C2: every handler preserves the invariant that the store holds at most
50 readings. -/
theorem c2_capacity_invariant (body : Payload) (ts : String) (now : Nat)
    (lim : Option String) (s : List Reading) (h : s.length ≤ 50) :
    ((handlePost body ts now s).2).length ≤ 50 ∧
    ((handleGet lim s).2).length ≤ 50 ∧
    ((handleLatest s).2).length ≤ 50 ∧
    ((handleDownload s).2).length ≤ 50 := by
  refine ⟨?_, h, ?_, h⟩
  · unfold handlePost
    split
    · exact h
    · simp only [insertReading_eq_take, List.length_take]
      omega
  · cases s with
    | nil => exact h
    | cons a t => exact h

/-- Witness for C2 at a concrete store and request. -/
theorem c2_capacity_invariant_witness :
    ((handlePost ⟨some (JSValue.num 1), some (JSValue.num 2), some (JSValue.num 3),
        some (JSValue.num 4)⟩ "t" 7 [sampleReading 0]).2).length ≤ 50 ∧
    ((handleGet (some "5") [sampleReading 0]).2).length ≤ 50 ∧
    ((handleLatest [sampleReading 0]).2).length ≤ 50 ∧
    ((handleDownload [sampleReading 0]).2).length ≤ 50 :=
  c2_capacity_invariant _ "t" 7 (some "5") [sampleReading 0] (by decide)

/-- C9: the three read handlers return the store unchanged. -/
theorem c9_reads_pure (lim : Option String) (s : List Reading) :
    (handleGet lim s).2 = s ∧ (handleLatest s).2 = s ∧ (handleDownload s).2 = s := by
  refine ⟨rfl, ?_, rfl⟩
  cases s with
  | nil => rfl
  | cons a t => rfl

/-- The validation test succeeds exactly on an absent or null field. -/
theorem isMissing_iff (v : Option JSValue) :
    isMissing v = true ↔ v = none ∨ v = some JSValue.null := by
  cases v with
  | none => simp [isMissing]
  | some w => cases w <;> simp [isMissing]

/-- C4: the POST handler answers 400 if and only if one of the four fields
is absent or null; on that failure the response carries success false, the
message naming the required fields and no reading, and the store is
unchanged; a present zero value is never treated as missing. -/
theorem c4_validation (body : Payload) (ts : String) (now : Nat) (s : List Reading) :
    ((handlePost body ts now s).1.status = 400 ↔
      ((body.strain = none ∨ body.strain = some JSValue.null) ∨
       (body.vibration = none ∨ body.vibration = some JSValue.null) ∨
       (body.displacement = none ∨ body.displacement = some JSValue.null) ∨
       (body.acceleration = none ∨ body.acceleration = some JSValue.null))) ∧
    ((handlePost body ts now s).1.status = 400 →
      (handlePost body ts now s).1.success = false ∧
      (handlePost body ts now s).1.message =
        "Missing required fields: strain, vibration, displacement, or acceleration" ∧
      (handlePost body ts now s).1.latestData = none ∧
      (handlePost body ts now s).2 = s) ∧
    isMissing (some (JSValue.num 0)) = false := by
  have hiff : (isMissing body.strain || isMissing body.vibration ||
      isMissing body.displacement || isMissing body.acceleration) = true ↔
      ((body.strain = none ∨ body.strain = some JSValue.null) ∨
       (body.vibration = none ∨ body.vibration = some JSValue.null) ∨
       (body.displacement = none ∨ body.displacement = some JSValue.null) ∨
       (body.acceleration = none ∨ body.acceleration = some JSValue.null)) := by
    simp only [Bool.or_eq_true, isMissing_iff, or_assoc]
  refine ⟨?_, ?_, rfl⟩
  · rw [← hiff]
    unfold handlePost
    by_cases hb : (isMissing body.strain || isMissing body.vibration ||
        isMissing body.displacement || isMissing body.acceleration) = true
    · simp [hb]
    · simp [hb]
  · unfold handlePost
    by_cases hb : (isMissing body.strain || isMissing body.vibration ||
        isMissing body.displacement || isMissing body.acceleration) = true
    · simp [hb]
    · simp only [if_neg hb]
      intro h
      simp at h

/-- Witness for C4 at the spec's example payload with an absent
displacement field. -/
theorem c4_validation_witness :
    (handlePost ⟨some (JSValue.num 10), some (JSValue.num 5), none,
        some (JSValue.num 1)⟩ "t" 7 store3).1.status = 400 ∧
    (handlePost ⟨some (JSValue.num 10), some (JSValue.num 5), none,
        some (JSValue.num 1)⟩ "t" 7 store3).2 = store3 := by
  have h := c4_validation ⟨some (JSValue.num 10), some (JSValue.num 5), none,
    some (JSValue.num 1)⟩ "t" 7 store3
  have h400 := h.1.mpr (Or.inr (Or.inr (Or.inl (Or.inl rfl))))
  exact ⟨h400, (h.2.1 h400).2.2.2⟩

/-- C5: the latest-reading handler answers 404 with success false exactly
on the empty store, otherwise 200 with the head of the store; after one
insert into the empty store it returns that reading. -/
theorem c5_latest (s : List Reading) :
    (s = [] → (handleLatest s).1 =
      { status := 404, success := false, data := none,
        message := some "No data available" }) ∧
    (s ≠ [] → (handleLatest s).1.status = 200 ∧ (handleLatest s).1.success = true ∧
      (handleLatest s).1.data = s.head?) ∧
    (∀ r : Reading, (handleLatest (insertReading [] r)).1 =
      { status := 200, success := true, data := some r, message := none }) := by
  refine ⟨?_, ?_, fun r => rfl⟩
  · rintro rfl
    rfl
  · intro h
    cases s with
    | nil => exact absurd rfl h
    | cons a t => exact ⟨rfl, rfl, rfl⟩

/-- Witness for C5 on the empty store and a one-element store. -/
theorem c5_latest_witness :
    (handleLatest ([] : List Reading)).1 =
      { status := 404, success := false, data := none,
        message := some "No data available" } ∧
    (handleLatest [sampleReading 3]).1.status = 200 :=
  ⟨(c5_latest []).1 rfl, ((c5_latest [sampleReading 3]).2.1 (by simp)).1⟩

/-- A nonzero number has a nonempty digit list. -/
theorem decDigits_ne_nil (n : Nat) (h : n ≠ 0) : decDigits n ≠ [] := by
  cases n with
  | zero => exact absurd rfl h
  | succ m => simp [decDigits, decDigitsCore]

/-- The id string assigned at ingest time is never empty. -/
theorem natToString_ne_empty (n : Nat) : natToString n ≠ "" := by
  unfold natToString
  by_cases h : n = 0
  · simp [h]
  · simp only [if_neg h]
    intro he
    have : ((decDigits n).map digitCh).reverse = [] := by
      have := congrArg String.data he
      simpa using this
    have := decDigits_ne_nil n h
    simp at this ⊢
    simp_all

/-- C6: on a payload with four plain numeric fields the POST handler
answers 200 with exactly the reading built from the payload (all four
numeric values preserved, timestamp and a nonempty id assigned), and that
reading is inserted at the front of the store. -/
theorem c6_success (q1 q2 q3 q4 : Rat) (ts : String) (now : Nat) (s : List Reading) :
    handlePost (numericPayload q1 q2 q3 q4) ts now s =
      ({ status := 200, success := true, message := "Data stored successfully in memory",
         latestData := some (numericReading q1 q2 q3 q4 ts now) },
       insertReading s (numericReading q1 q2 q3 q4 ts now)) ∧
    (numericReading q1 q2 q3 q4 ts now).strain = JSNumber.val q1 ∧
    (numericReading q1 q2 q3 q4 ts now).vibration = JSNumber.val q2 ∧
    (numericReading q1 q2 q3 q4 ts now).displacement = JSNumber.val q3 ∧
    (numericReading q1 q2 q3 q4 ts now).acceleration = JSNumber.val q4 ∧
    (numericReading q1 q2 q3 q4 ts now).timestamp = ts ∧
    (numericReading q1 q2 q3 q4 ts now).id = natToString now ∧
    (numericReading q1 q2 q3 q4 ts now).id ≠ "" ∧
    (insertReading s (numericReading q1 q2 q3 q4 ts now)).head? =
      some (numericReading q1 q2 q3 q4 ts now) := by
  refine ⟨rfl, rfl, rfl, rfl, rfl, rfl, rfl, natToString_ne_empty now, ?_⟩
  exact insertReading_head s _

/-- C7: the export worksheet has the six fixed columns in order, a bold
header row, and one data row per stored reading in store order (newest
first); with 3 stored readings that is 4 rows in total. -/
theorem c7_export (s : List Reading) :
    (handleDownload s).1.header =
      ["Timestamp", "Strain", "Vibration", "Displacement", "Acceleration", "ID"] ∧
    (handleDownload s).1.headerBold = true ∧
    (handleDownload s).1.rows = s.map readingRow ∧
    ((handleDownload s).1.rows).length = s.length ∧
    (s.length = 3 → 1 + ((handleDownload s).1.rows).length = 4) := by
  refine ⟨rfl, rfl, rfl, by simp [handleDownload], ?_⟩
  intro h
  simp [handleDownload, h]

/-- Witness for C7 on a concrete 3-reading store. -/
theorem c7_export_witness :
    1 + ((handleDownload store3).1.rows).length = 4 :=
  (c7_export store3).2.2.2.2 (by decide)

/-- C10: a payload whose strain is the non-numeric string "abc" (and whose
other fields are plain numbers) passes validation, and the reading stored
at the front of the store carries NaN for strain, the other values intact. -/
theorem c10_presence_only (q2 q3 q4 : Rat) (ts : String) (now : Nat) (s : List Reading) :
    (handlePost ⟨some (JSValue.str "abc"), some (JSValue.num q2), some (JSValue.num q3),
        some (JSValue.num q4)⟩ ts now s).1.status = 200 ∧
    (handlePost ⟨some (JSValue.str "abc"), some (JSValue.num q2), some (JSValue.num q3),
        some (JSValue.num q4)⟩ ts now s).1.latestData =
      some { strain := JSNumber.nan, vibration := JSNumber.val q2,
             displacement := JSNumber.val q3, acceleration := JSNumber.val q4,
             timestamp := ts, id := natToString now } ∧
    ((handlePost ⟨some (JSValue.str "abc"), some (JSValue.num q2), some (JSValue.num q3),
        some (JSValue.num q4)⟩ ts now s).2).head? =
      some { strain := JSNumber.nan, vibration := JSNumber.val q2,
             displacement := JSNumber.val q3, acceleration := JSNumber.val q4,
             timestamp := ts, id := natToString now } := by
  have habc : jsStringToNumber "abc" = JSNumber.nan := by decide
  have hfield : numField (some (JSValue.str "abc")) = JSNumber.nan := habc
  refine ⟨rfl, ?_, ?_⟩
  · show some _ = some _
    rw [show numField (some (JSValue.str "abc")) = JSNumber.nan from habc]
    rfl
  · show (insertReading s _).head? = _
    rw [insertReading_head s _, hfield]
    rfl

/-- Taking `min n (length)` elements is the same as taking `n`. -/
theorem take_min_length (l : List Reading) (n : Nat) :
    l.take (min n l.length) = l.take n := by
  rcases Nat.le_total n l.length with h | h
  · rw [Nat.min_eq_left h]
  · rw [Nat.min_eq_right h, List.take_of_length_le h, List.take_length]

/-- C3 counterexample: on a 3-element store, the claim says a non-positive
limit behaves exactly as the default `Query(10)`, but `limit=-1` reaches
`slice(0, -1)` and drops the newest-last element instead: 2 readings come
back, not 3. -/
theorem c3_counterexample :
    (handleGet (some "-1") store3).1 ≠ (handleGet (some "10") store3).1 := by decide

/-- C3 amended: an absent or non-numeric limit, and a limit of 0, behave
as the default `Query(10)`; a positive limit `n` returns the first
`n` readings (all of them when `n` exceeds the store size); but a negative
limit `-k` returns the first `size - k` readings (clamped at 0), as
JavaScript `slice(0, -k)` does — not the default. -/
theorem c3_amended (lim : Option String) (s : List Reading) :
    (jsParseInt lim = none → handleGet lim s = handleGet (some "10") s) ∧
    (jsParseInt lim = some 0 → handleGet lim s = handleGet (some "10") s) ∧
    (∀ n : Int, jsParseInt lim = some n → 0 < n →
      (handleGet lim s).1.data = s.take n.toNat) ∧
    (∀ n : Int, jsParseInt lim = some n → n < 0 →
      (handleGet lim s).1.data = s.take (s.length - (-n).toNat)) := by
  have h10 : jsParseInt (some "10") = some 10 := by decide
  refine ⟨?_, ?_, ?_, ?_⟩
  · intro h
    unfold handleGet
    rw [h, h10]
    norm_num
  · intro h
    unfold handleGet
    rw [h, h10]
    norm_num
  · intro n h hn
    unfold handleGet
    rw [h]
    have hne : ¬ n = 0 := by omega
    simp only [if_neg hne]
    unfold jsSliceTo
    have hnn : ¬ n < 0 := by omega
    simp only [if_neg hnn]
    have : (min n (s.length : Int)).toNat = min n.toNat s.length := by omega
    rw [this, take_min_length]
  · intro n h hn
    unfold handleGet
    rw [h]
    have hne : ¬ n = 0 := by omega
    simp only [if_neg hne]
    unfold jsSliceTo
    simp only [if_pos hn]
    have : (max ((s.length : Int) + n) 0).toNat = s.length - (-n).toNat := by omega
    rw [this]

/-- Witness for C3 amended: a non-numeric limit and limit 0 behave as the
default, limit 2 takes a 2-prefix, limit -1 takes `size - 1` elements. -/
theorem c3_amended_witness :
    handleGet (some "abc") store3 = handleGet (some "10") store3 ∧
    handleGet (some "0") store3 = handleGet (some "10") store3 ∧
    (handleGet (some "2") store3).1.data = store3.take 2 ∧
    (handleGet (some "-1") store3).1.data = store3.take (store3.length - 1) := by
  refine ⟨(c3_amended (some "abc") store3).1 (by decide),
    (c3_amended (some "0") store3).2.1 (by decide),
    (c3_amended (some "2") store3).2.2.1 2 (by decide) (by decide), ?_⟩
  have h := (c3_amended (some "-1") store3).2.2.2 (-1) (by decide) (by decide)
  simpa using h
theorem decDigitsCore_zero (f : Nat) : decDigitsCore f 0 = [] := by
  cases f <;> rfl

theorem decDigitsCore_of_le (n : Nat) :
    ∀ f₁ f₂ : Nat, n ≤ f₁ → n ≤ f₂ → decDigitsCore f₁ n = decDigitsCore f₂ n := by
  induction n using Nat.strong_induction_on with
  | _ n ih =>
    intro f₁ f₂ h₁ h₂
    cases n with
    | zero => rw [decDigitsCore_zero, decDigitsCore_zero]
    | succ m =>
      cases f₁ with
      | zero => omega
      | succ g₁ =>
        cases f₂ with
        | zero => omega
        | succ g₂ =>
          show (m + 1) % 10 :: decDigitsCore g₁ ((m + 1) / 10) =
            (m + 1) % 10 :: decDigitsCore g₂ ((m + 1) / 10)
          congr 1
          exact ih ((m + 1) / 10) (by omega) g₁ g₂ (by omega) (by omega)

theorem decDigits_succ (n : Nat) (h : n ≠ 0) :
    decDigits n = n % 10 :: decDigits (n / 10) := by
  cases n with
  | zero => exact absurd rfl h
  | succ m =>
    show (m + 1) % 10 :: decDigitsCore m ((m + 1) / 10) = _
    congr 1
    exact decDigitsCore_of_le ((m + 1) / 10) m ((m + 1) / 10) (by omega) (by omega)

theorem decDigits_eq_nil (n : Nat) (h : decDigits n = []) : n = 0 := by
  by_contra hn
  rw [decDigits_succ n hn] at h
  simp at h

theorem decDigits_eq_single_zero (n : Nat) (h : decDigits n = [0]) : n = 0 := by
  by_cases hn : n = 0
  · exact hn
  · rw [decDigits_succ n hn] at h
    injection h with h1 h2
    have := decDigits_eq_nil _ h2
    omega

theorem decDigits_lt_ten (n : Nat) : ∀ d ∈ decDigits n, d < 10 := by
  induction n using Nat.strong_induction_on with
  | _ n ih =>
    by_cases h : n = 0
    · subst h
      intro d hd
      simp [decDigits, decDigitsCore] at hd
    · rw [decDigits_succ n h]
      intro d hd
      rcases List.mem_cons.mp hd with h1 | h2
      · subst h1
        exact Nat.mod_lt _ (by omega)
      · exact ih (n / 10) (by omega) d h2

theorem decDigits_injective (m : Nat) :
    ∀ n : Nat, decDigits m = decDigits n → m = n := by
  induction m using Nat.strong_induction_on with
  | _ m ih =>
    intro n h
    by_cases hm : m = 0
    · subst hm
      by_cases hn : n = 0
      · omega
      · rw [decDigits_succ n hn] at h
        simp [decDigits, decDigitsCore] at h
    · by_cases hn : n = 0
      · subst hn
        rw [decDigits_succ m hm] at h
        simp [decDigits, decDigitsCore] at h
      · rw [decDigits_succ m hm, decDigits_succ n hn] at h
        injection h with h1 h2
        have h3 : m / 10 = n / 10 := ih (m / 10) (by omega) (n / 10) h2
        omega

theorem digitCh_inj : ∀ a < 10, ∀ b < 10, digitCh a = digitCh b → a = b := by decide

theorem map_digitCh_inj (l1 : List Nat) :
    ∀ l2 : List Nat, (∀ d ∈ l1, d < 10) → (∀ d ∈ l2, d < 10) →
      l1.map digitCh = l2.map digitCh → l1 = l2 := by
  induction l1 with
  | nil =>
    intro l2 _ _ h
    cases l2 with
    | nil => rfl
    | cons b t2 => simp at h
  | cons a t ih =>
    intro l2 hb1 hb2 h
    cases l2 with
    | nil => simp at h
    | cons b t2 =>
      simp only [List.map_cons, List.cons.injEq] at h
      have hab : a = b := digitCh_inj a (hb1 a (by simp)) b (hb2 b (by simp)) h.1
      rw [hab, ih t2 (fun d hd => hb1 d (by simp [hd])) (fun d hd => hb2 d (by simp [hd])) h.2]

theorem natToString_zero_case (n : Nat) (h : "0" = String.mk (((decDigits n).map digitCh).reverse)) :
    n = 0 := by
  have hd : ['0'] = ((decDigits n).map digitCh).reverse := by
    have := congrArg String.data h
    simpa using this
  have h1 : (decDigits n).map digitCh = ['0'] := by
    have := congrArg List.reverse hd
    simpa using this.symm
  have h2 : decDigits n = [0] := by
    refine map_digitCh_inj (decDigits n) [0] (decDigits_lt_ten n) (by simp) ?_
    rw [h1]
    rfl
  exact decDigits_eq_single_zero n h2

theorem natToString_injective (m n : Nat) (h : natToString m = natToString n) : m = n := by
  unfold natToString at h
  by_cases hm : m = 0 <;> by_cases hn : n = 0
  · omega
  · rw [if_pos hm, if_neg hn] at h
    have := natToString_zero_case n h
    omega
  · rw [if_neg hm, if_pos hn] at h
    have := natToString_zero_case m h.symm
    omega
  · rw [if_neg hm, if_neg hn] at h
    have hl : ((decDigits m).map digitCh).reverse = ((decDigits n).map digitCh).reverse := by
      have := congrArg String.data h
      simpa using this
    have hmap : (decDigits m).map digitCh = (decDigits n).map digitCh :=
      List.reverse_inj.mp hl
    exact decDigits_injective m n
      (map_digitCh_inj _ _ (decDigits_lt_ten m) (decDigits_lt_ten n) hmap)

/-- On a 200 response, the returned reading's id is the decimal string of
the ingest clock value. -/
theorem handlePost_latestData_id (b : Payload) (ts : String) (now : Nat)
    (s : List Reading) (r : Reading)
    (h : (handlePost b ts now s).1.latestData = some r) :
    r.id = natToString now := by
  unfold handlePost at h
  split at h
  · simp at h
  · simp only [Option.some.injEq] at h
    rw [← h]

/-- C8 counterexample: two successful ingests during the same clock
millisecond (`Date.now() = 100` for both) leave two distinct readings in
the store carrying the same id "100". -/
theorem c8_counterexample :
    ((handlePost (numericPayload 5 6 7 8) "t2" 100
        ((handlePost (numericPayload 1 2 3 4) "t1" 100 []).2)).2.map Reading.id) =
      ["100", "100"] ∧
    ((handlePost (numericPayload 5 6 7 8) "t2" 100
        ((handlePost (numericPayload 1 2 3 4) "t1" 100 []).2)).2.map Reading.strain) =
      [JSNumber.val 5, JSNumber.val 1] := by decide

/-- C8 amended: two readings returned by successful ingests have distinct
ids provided the clock values (`Date.now()` milliseconds) of the two
ingests differ; ids may collide when the ingests share a millisecond. -/
theorem c8_amended (t1 t2 : Nat) (hne : t1 ≠ t2) (b1 b2 : Payload)
    (ts1 ts2 : String) (s : List Reading) (r1 r2 : Reading)
    (h1 : (handlePost b1 ts1 t1 s).1.latestData = some r1)
    (h2 : (handlePost b2 ts2 t2 ((handlePost b1 ts1 t1 s).2)).1.latestData = some r2) :
    r1.id ≠ r2.id := by
  rw [handlePost_latestData_id b1 ts1 t1 s r1 h1,
      handlePost_latestData_id b2 ts2 t2 _ r2 h2]
  intro h
  exact hne (natToString_injective t1 t2 h)

/-- Witness for C8 amended: ingests at clock values 100 and 101. -/
theorem c8_amended_witness :
    (numericReading 1 2 3 4 "t1" 100).id ≠ (numericReading 5 6 7 8 "t2" 101).id :=
  c8_amended 100 101 (by decide) (numericPayload 1 2 3 4) (numericPayload 5 6 7 8)
    "t1" "t2" [] (numericReading 1 2 3 4 "t1" 100) (numericReading 5 6 7 8 "t2" 101)
    (by decide) (by decide)
